import Mathlib

/-!
Verification of the CronCoder orchestration core (src/croncoder.py).

This file gives a shallow embedding of the orchestration core — the
PID lock file (class LockFile), the GitHub quota governor
(check_github_rate_limit and its caller get_open_issues), the
per-issue cooldown check (check_recent_attempt), and the scheduling
loop (scan_repositories and the decision logic of main) — and proves
the spec claims about them.

External effects (subprocess calls, the filesystem, the network) are
modelled as explicit inputs: the lock file is a field of a state
record, the result of the gh rate-limit fetch is an inductive value,
the outcome of processing one issue is supplied by an environment.
-/

/-! ## String helpers

Python substring and parsing operations used by the source. -/

/-- Boolean test that the first list is an initial segment of the second,
used to build the Python substring test. -/
def leadsWith : List Char → List Char → Bool
  | [], _ => true
  | _ :: _, [] => false
  | p :: ps, c :: cs => p == c && leadsWith ps cs

/-- Boolean test that the pattern occurs contiguously inside the list. -/
def occursIn (pat : List Char) : List Char → Bool
  | [] => leadsWith pat []
  | c :: cs => leadsWith pat (c :: cs) || occursIn pat cs

/-- Models the Python expression pat in s (substring containment). -/
def strContainsSub (pat s : String) : Bool :=
  occursIn pat.toList s.toList

/-- Models Python str.lower as used on stderr text (ASCII letters suffice
for the rate-limit message test). -/
def pyLower (s : String) : String :=
  (s.toList.map Char.toLower).asString

/-- Numeric value of a list of decimal digit characters. -/
def digitsToNat (cs : List Char) : Nat :=
  cs.foldl (fun n c => n * 10 + (c.toNat - 48)) 0

/-- Strips leading and trailing whitespace, modelling Python str.strip. -/
def stripChars (cs : List Char) : List Char :=
  ((cs.dropWhile Char.isWhitespace).reverse.dropWhile Char.isWhitespace).reverse

/-- Models int(content.strip()) from LockFile.acquire and LockFile.release:
some pid when the stripped content is an optionally signed run of decimal
digits, none when the conversion raises ValueError. -/
def parsePid (s : String) : Option Int :=
  match stripChars s.toList with
  | [] => none
  | c :: rest =>
    if c = '-' then
      if rest ≠ [] ∧ rest.all Char.isDigit then some (-(digitsToNat rest : Int))
      else none
    else if c = '+' then
      if rest ≠ [] ∧ rest.all Char.isDigit then some (digitsToNat rest : Int)
      else none
    else if (c :: rest).all Char.isDigit then
      some (digitsToNat (c :: rest) : Int)
    else none

/-! ## LockFile (src/croncoder.py lines 58-113)

The lock file on disk is modelled as an Option String (none = absent),
and the instance flag self.locked as a Bool.  Liveness probing of a pid
(os.kill(pid, 0)) is an abstract capability alive : Int → Bool. -/

/-- State visible to LockFile.acquire and LockFile.release: the content of
the lock file at lock_path (none when the file does not exist) and the
value of the self.locked flag. -/
structure LockState where
  file : Option String
  locked : Bool
deriving DecidableEq, Repr

/-- Models LockFile.acquire (lines 65-95).  If the lock file exists and its
content parses to a pid of a live process, return False and change
nothing; if the pid is dead or the content is unparseable, the stale file
is removed and a fresh one holding the current pid is written, the locked
flag is set, and True is returned.  The atexit and signal-handler
registrations are process-level effects outside this state. -/
def LockFile.acquire (alive : Int → Bool) (myPid : Int) (s : LockState) :
    Bool × LockState :=
  match s.file with
  | some content =>
    match parsePid content with
    | some oldPid =>
      if alive oldPid then (false, s)
      else (true, ⟨some (toString myPid), true⟩)
    | none => (true, ⟨some (toString myPid), true⟩)
  | none => (true, ⟨some (toString myPid), true⟩)

/-- Models LockFile.release (lines 97-108): only when the locked flag is set
and the file exists and its content parses to exactly the current pid is
the file removed (and the flag cleared); in every other case the state is
untouched (parse errors are swallowed by the except clause). -/
def LockFile.release (myPid : Int) (s : LockState) : LockState :=
  if s.locked then
    match s.file with
    | some content =>
      match parsePid content with
      | some pid => if pid = myPid then ⟨none, false⟩ else s
      | none => s
    | none => s
  else s

/-! ## Quota governor (src/croncoder.py lines 116-174)

check_github_rate_limit runs gh api rate_limit and returns a wait time
in seconds.  The outcome of the subprocess call and of the JSON parse is
an explicit input.  Times are rationals (seconds); reset timestamps are
integers (Unix epoch seconds). -/

/-- QuotaCategory mirrors one entry of the parsed rate-limit JSON:
remaining and limit counts and the reset Unix timestamp. -/
structure QuotaCategory where
  remaining : Nat
  limit : Nat
  reset : Int
deriving DecidableEq, Repr

/-- Outcome of the gh api rate_limit fetch as seen by
check_github_rate_limit: an exception anywhere in the fetch or in the
JSON parsing (caught at line 172), a completed call with non-zero exit
code carrying its stderr text (line 126), or a parsed snapshot with the
core category and the optional graphql category (lines 134-148). -/
inductive RateLimitFetch where
  | exn : RateLimitFetch
  | errResult (stderr : String) : RateLimitFetch
  | okResult (core : QuotaCategory) (graphql : Option QuotaCategory) : RateLimitFetch
deriving DecidableEq, Repr

/-- Models check_github_rate_limit (lines 116-174) as a function from the
fetch outcome and the current time (Unix seconds) to the returned wait
time in seconds. -/
def check_github_rate_limit : RateLimitFetch → ℚ → ℚ
  | .exn, _ => 0
  | .errResult stderr, _ =>
    if strContainsSub "rate limit" (pyLower stderr) then 3600 else 0
  | .okResult core g, now =>
    let graphql := g.getD core
    let remaining := min core.remaining graphql.remaining
    let resetTimestamp := min core.reset graphql.reset
    let timeUntilReset : ℚ := max 0 ((resetTimestamp : ℚ) - now)
    if remaining < 50 then
      if remaining = 0 then timeUntilReset + 60
      else
        let waitTime := timeUntilReset / (remaining : ℚ)
        if waitTime > 10 then waitTime else 0
    else 0

/-- Models the governor as consumed by get_open_issues (lines 237-242): the
returned delay is slept in full when positive, after which the caller
unconditionally proceeds to the listing call, so the proceed component is
always true. -/
def checkAndWait (fetch : RateLimitFetch) (now : ℚ) : ℚ × Bool :=
  (check_github_rate_limit fetch now, true)

/-! ## Cooldown check (src/croncoder.py lines 306-330)

check_recent_attempt scans the issue comments newest-first for the
CronCoder working-on-it marker and reports cooldown when one is younger
than the window. -/

/-- Marker text posted by CronCoder and searched for by
check_recent_attempt (line 311). -/
def croncoderPattern : String := "🤖 CronCoder is now working on this issue"

/-- One issue comment as consumed by check_recent_attempt: its body text
and its creation time already parsed to Unix seconds (none when the
createdAt field is absent, empty, or unparseable — all of which make the
loop move on, lines 317-328). -/
structure IssueComment where
  body : String
  createdAt : Option ℚ
deriving DecidableEq, Repr

/-- Models check_recent_attempt (lines 306-330): True exactly when some
comment contains the marker and carries a parseable timestamp whose age
(now minus the timestamp) is strictly below cooldownHours hours.  The
source iterates reversed(comments) and only ever early-returns True, so
the loop is an any over the reversed list. -/
def check_recent_attempt (comments : List IssueComment) (now : ℚ)
    (cooldownHours : ℚ) : Bool :=
  comments.reverse.any fun c =>
    strContainsSub croncoderPattern c.body &&
      match c.createdAt with
      | some t => decide (now - t < cooldownHours * 3600)
      | none => false

/-! ## Issue listing and the scheduling loop
(src/croncoder.py lines 235-265, 611-676, 719-741)

A repository is a directory entry with its git-ness and the outcome of
its gh issue list call.  Processing a single issue (process_issue) and
the per-issue cooldown probe are external collaborators supplied by an
environment. -/

/-- One open issue as parsed from the gh issue list JSON: its number and
its label names. -/
structure Issue where
  number : Nat
  labels : List String
deriving DecidableEq, Repr

/-- Outcome of the gh issue list subprocess call in get_open_issues: a
failed call carrying its stderr text (lines 244-250), a successful call
whose stdout does not parse as JSON (lines 263-265), or the parsed issue
list (lines 252-262). -/
inductive FetchResult where
  | cmdErr (stderr : String) : FetchResult
  | parseErr : FetchResult
  | fetched (issues : List Issue) : FetchResult
deriving DecidableEq, Repr

/-- Models get_open_issues (lines 235-265) after the rate-limit pause:
none signals a rate-limit error (the stderr of a failed call mentions a
rate limit), some gives the issue list with croncoder-skip labelled
issues filtered out; other failures yield the empty list. -/
def get_open_issues (r : FetchResult) : Option (List Issue) :=
  match r with
  | .cmdErr stderr =>
    if strContainsSub "rate limit" (pyLower stderr) ||
        strContainsSub "api rate limit exceeded" (pyLower stderr) then none
    else some []
  | .parseErr => some []
  | .fetched issues =>
    some (issues.filter fun i => !(i.labels.contains "croncoder-skip"))

/-- One directory entry under repos_dir as seen by scan_repositories:
its name, whether it is a directory, whether it is a git repository, and
the outcome of listing its issues. -/
structure Repo where
  name : String
  isDir : Bool
  isGit : Bool
  fetch : FetchResult
deriving DecidableEq, Repr

/-- Result reported by process_issue for one dispatched issue: True
(the success path), False (any of its early returns), or an
unexpected exception escaping it. -/
inductive ProcResult where
  | success : ProcResult
  | failure : ProcResult
  | exn : ProcResult
deriving DecidableEq, Repr

/-- Environment of external collaborators consulted by the scan loop:
recent models check_recent_attempt for a repo name and issue number, and
proc models the outcome of process_issue. -/
structure ScanEnv where
  recent : String → Nat → Bool
  proc : String → Nat → ProcResult

/-- Session failure key built at line 648: repo directory name, a hash
sign, and the issue number. -/
def issueKey (repoName : String) (n : Nat) : String :=
  repoName ++ "#" ++ toString n

/-- Models failed_issues.add(issue_key) on the Python set, represented as
a duplicate-free insertion into a list of keys. -/
def addKey (failed : List String) (k : String) : List String :=
  if k ∈ failed then failed else k :: failed

/-- Models the per-issue loop of scan_repositories (lines 647-674) over
one repository's issue list: an issue already in the session failure set
or in cooldown is skipped; otherwise it is dispatched, the processable
flag is set, and on a False result or an escaping exception its key is
added to the failure set.  Returns the updated failure set and
processable flag. -/
def processIssues (env : ScanEnv) (repoName : String) :
    List Issue → List String → Bool → List String × Bool
  | [], failed, processable => (failed, processable)
  | issue :: rest, failed, processable =>
    if issueKey repoName issue.number ∈ failed then
      processIssues env repoName rest failed processable
    else if env.recent repoName issue.number then
      processIssues env repoName rest failed processable
    else
      match env.proc repoName issue.number with
      | .success => processIssues env repoName rest failed true
      | .failure =>
        processIssues env repoName rest
          (addKey failed (issueKey repoName issue.number)) true
      | .exn =>
        processIssues env repoName rest
          (addKey failed (issueKey repoName issue.number)) true

/-- State threaded through one pass of scan_repositories: the
issues_found, failed_issues, processable_issues_found and rate_limit_hit
variables of lines 613-619. -/
structure ScanState where
  issuesFound : Bool
  failed : List String
  processable : Bool
  rateLimit : Bool
deriving DecidableEq, Repr

/-- Models the body of the repository loop (lines 622-674) for one
directory entry: non-directories and non-git directories are skipped, a
rate-limited listing only sets the rate-limit flag, an empty list leaves
the state alone, and a non-empty list marks issues as found and runs the
per-issue loop. -/
def scanRepo (env : ScanEnv) (st : ScanState) (r : Repo) : ScanState :=
  if r.isDir && r.isGit then
    match get_open_issues r.fetch with
    | none => { st with rateLimit := true }
    | some [] => st
    | some (i :: rest) =>
      let p := processIssues env r.name (i :: rest) st.failed st.processable
      { st with issuesFound := true, failed := p.1, processable := p.2 }
  else st

/-- Folds scanRepo over the directory entries in listing order. -/
def scanRepos (env : ScanEnv) : List Repo → ScanState → ScanState
  | [], st => st
  | r :: rest, st => scanRepos env rest (scanRepo env st r)

/-- Models scan_repositories (lines 611-676) for one pass: all four flags
start from their line 613-619 initial values, with the session failure
set carried in from the caller. -/
def scan_repositories (env : ScanEnv) (repos : List Repo)
    (failed₀ : List String) : ScanState :=
  scanRepos env repos ⟨false, failed₀, false, false⟩

/-- Pass outcomes distinguished by the spec for the branchwork of main
(lines 728-741). -/
inductive PassOutcome where
  | idle : PassOutcome
  | exhausted : PassOutcome
  | progressed : PassOutcome
deriving DecidableEq, Repr

/-- Classification main applies to a finished pass (lines 728-741): no
issues found anywhere is the idle branch, issues found but none
processable is the exhausted branch, otherwise the pass progressed and
the loop runs again. -/
def passOutcome (st : ScanState) : PassOutcome :=
  if st.issuesFound = false then .idle
  else if st.processable = false then .exhausted
  else .progressed

/-- Models the loop-control decision of main (lines 719-741) after one
pass: some t means the process sleeps t seconds and then exits the loop
(the break statements), none means it immediately starts another pass.
The rate-limit branch is tested first, then the idle branch, then the
exhausted branch. -/
def mainPass (sleepMinutes : Nat) (st : ScanState) : Option Nat :=
  if st.rateLimit then some (sleepMinutes * 60)
  else if st.issuesFound = false then some (sleepMinutes * 60)
  else if st.processable = false then some (sleepMinutes * 60)
  else none

/-! ## Helper lemmas about the per-issue loop -/

lemma mem_addKey_self (failed : List String) (k : String) :
    k ∈ addKey failed k := by
  unfold addKey
  split
  · assumption
  · exact List.mem_cons_self _ _

lemma mem_addKey_of_mem (failed : List String) (k k' : String)
    (h : k' ∈ failed) : k' ∈ addKey failed k := by
  unfold addKey
  split
  · exact h
  · exact List.mem_cons_of_mem _ h

lemma pi_failed_mono (env : ScanEnv) (n : String) (issues : List Issue) :
    ∀ (failed : List String) (p : Bool) (k : String), k ∈ failed →
      k ∈ (processIssues env n issues failed p).1 := by
  induction issues with
  | nil => intro failed p k hk; simpa [processIssues] using hk
  | cons i rest ih =>
    intro failed p k hk
    unfold processIssues
    split
    · exact ih failed p k hk
    · split
      · exact ih failed p k hk
      · split
        · exact ih failed true k hk
        · exact ih _ true k (mem_addKey_of_mem _ _ _ hk)
        · exact ih _ true k (mem_addKey_of_mem _ _ _ hk)

/-- Condition under which one issue is dispatched, relative to a failure
set: not already session-failed and not in cooldown. -/
def dispatchCond (env : ScanEnv) (n : String) (failed : List String)
    (i : Issue) : Bool :=
  !(decide (issueKey n i.number ∈ failed)) && !(env.recent n i.number)

lemma pi_processable_eq (env : ScanEnv) (n : String) (issues : List Issue) :
    ∀ (failed : List String) (p : Bool),
      (processIssues env n issues failed p).2 =
        (p || issues.any (dispatchCond env n failed)) := by
  induction issues with
  | nil => intro failed p; simp [processIssues]
  | cons i rest ih =>
    intro failed p
    unfold processIssues
    by_cases hf : issueKey n i.number ∈ failed
    · rw [if_pos hf, ih]
      simp [dispatchCond, hf]
    · rw [if_neg hf]
      by_cases hr : env.recent n i.number
      · rw [if_pos hr, ih]
        simp [dispatchCond, hf, hr]
      · rw [if_neg hr]
        have hcond : dispatchCond env n failed i = true := by
          simp [dispatchCond, hf, hr]
        cases hp : env.proc n i.number <;>
          simp [ih, hcond, List.any_cons]

lemma pi_failed_frozen (env : ScanEnv) (n : String) (issues : List Issue) :
    ∀ (failed : List String) (p : Bool),
      issues.any (dispatchCond env n failed) = false →
      (processIssues env n issues failed p).1 = failed := by
  induction issues with
  | nil => intro failed p _; simp [processIssues]
  | cons i rest ih =>
    intro failed p hany
    rw [List.any_cons, Bool.or_eq_false_iff] at hany
    obtain ⟨hi, hrest⟩ := hany
    unfold processIssues
    by_cases hf : issueKey n i.number ∈ failed
    · rw [if_pos hf]; exact ih failed p hrest
    · rw [if_neg hf]
      by_cases hr : env.recent n i.number
      · rw [if_pos hr]; exact ih failed p hrest
      · exfalso
        simp [dispatchCond, hf, hr] at hi

lemma pi_all_fail_mem (env : ScanEnv) (n : String)
    (hfail : ∀ r m, env.proc r m ≠ .success) (issues : List Issue) :
    ∀ (failed : List String) (p : Bool) (i : Issue), i ∈ issues →
      env.recent n i.number = false →
      issueKey n i.number ∈ (processIssues env n issues failed p).1 := by
  induction issues with
  | nil => intro failed p i hi _; exact absurd hi (List.not_mem_nil i)
  | cons j rest ih =>
    intro failed p i hi hrec
    rcases List.mem_cons.mp hi with hij | hirest
    · subst hij
      unfold processIssues
      by_cases hf : issueKey n i.number ∈ failed
      · rw [if_pos hf]
        exact pi_failed_mono env n rest failed p _ hf
      · rw [if_neg hf, hrec]
        simp only [Bool.false_eq_true, if_false]
        cases hp : env.proc n i.number
        · exact absurd hp (hfail n i.number)
        · exact pi_failed_mono env n rest _ true _ (mem_addKey_self _ _)
        · exact pi_failed_mono env n rest _ true _ (mem_addKey_self _ _)
    · unfold processIssues
      split
      · exact ih failed p i hirest hrec
      · split
        · exact ih failed p i hirest hrec
        · split
          · exact ih failed true i hirest hrec
          · exact ih _ true i hirest hrec
          · exact ih _ true i hirest hrec

/-! ## Helper lemmas about the repository loop -/

/-- Boolean test that a directory entry is a valid repository whose
listing produced a non-empty issue list (the condition under which line
643 sets issues_found). -/
def repoHasItems (r : Repo) : Bool :=
  r.isDir && r.isGit &&
    match get_open_issues r.fetch with
    | some (_ :: _) => true
    | _ => false

/-- Boolean test that a valid repository's listing holds at least one
issue that is dispatchable relative to a failure set. -/
def repoDispatchable (env : ScanEnv) (failed : List String) (r : Repo) :
    Bool :=
  r.isDir && r.isGit &&
    match get_open_issues r.fetch with
    | some l => l.any (dispatchCond env r.name failed)
    | none => false

lemma scanRepos_append (env : ScanEnv) (l₁ l₂ : List Repo) :
    ∀ st, scanRepos env (l₁ ++ l₂) st = scanRepos env l₂ (scanRepos env l₁ st) := by
  induction l₁ with
  | nil => intro st; rfl
  | cons r rest ih => intro st; simp [scanRepos, ih]

lemma scanRepo_rateLimit_true (env : ScanEnv) (st : ScanState) (r : Repo) :
    scanRepo env { st with rateLimit := true } r =
      { scanRepo env st r with rateLimit := true } := by
  unfold scanRepo
  by_cases hv : r.isDir && r.isGit
  · rw [if_pos hv, if_pos hv]
    cases hg : get_open_issues r.fetch with
    | none => rfl
    | some l => cases l <;> rfl
  · rw [if_neg hv, if_neg hv]

lemma scanRepos_rateLimit_true (env : ScanEnv) (repos : List Repo) :
    ∀ st, scanRepos env repos { st with rateLimit := true } =
      { scanRepos env repos st with rateLimit := true } := by
  induction repos with
  | nil => intro st; rfl
  | cons r rest ih =>
    intro st
    show scanRepos env rest (scanRepo env { st with rateLimit := true } r) = _
    rw [scanRepo_rateLimit_true, ih]
    rfl

lemma scanRepos_failed_mono (env : ScanEnv) (repos : List Repo) :
    ∀ (st : ScanState) (k : String), k ∈ st.failed →
      k ∈ (scanRepos env repos st).failed := by
  induction repos with
  | nil => intro st k hk; exact hk
  | cons r rest ih =>
    intro st k hk
    show k ∈ (scanRepos env rest (scanRepo env st r)).failed
    apply ih
    unfold scanRepo
    split
    · split
      · exact hk
      · exact hk
      · exact pi_failed_mono env r.name _ st.failed st.processable k hk
    · exact hk

lemma scanRepo_issuesFound (env : ScanEnv) (st : ScanState) (r : Repo) :
    (scanRepo env st r).issuesFound = (st.issuesFound || repoHasItems r) := by
  unfold scanRepo repoHasItems
  by_cases hv : r.isDir && r.isGit
  · rw [if_pos hv]
    cases hg : get_open_issues r.fetch with
    | none => simp [hg, hv]
    | some l => cases l <;> simp [hg, hv]
  · rw [if_neg hv]
    have hv2 : (r.isDir && r.isGit) = false := by
      cases hdd : r.isDir <;> cases hgg : r.isGit <;> simp_all
    rw [hv2]
    simp

lemma scanRepos_issuesFound (env : ScanEnv) (repos : List Repo) :
    ∀ st, (scanRepos env repos st).issuesFound =
      (st.issuesFound || repos.any repoHasItems) := by
  induction repos with
  | nil => intro st; simp [scanRepos]
  | cons r rest ih =>
    intro st
    show (scanRepos env rest (scanRepo env st r)).issuesFound = _
    rw [ih, scanRepo_issuesFound, List.any_cons, Bool.or_assoc]

lemma scanRepo_eq_invalid (env : ScanEnv) (st : ScanState) (r : Repo)
    (hv : (r.isDir && r.isGit) = false) : scanRepo env st r = st := by
  unfold scanRepo
  rw [hv]
  simp

lemma scanRepo_eq_none (env : ScanEnv) (st : ScanState) (r : Repo)
    (hv : (r.isDir && r.isGit) = true)
    (hg : get_open_issues r.fetch = none) :
    scanRepo env st r = { st with rateLimit := true } := by
  unfold scanRepo
  rw [hv, hg]
  rfl

lemma scanRepo_eq_nil (env : ScanEnv) (st : ScanState) (r : Repo)
    (hv : (r.isDir && r.isGit) = true)
    (hg : get_open_issues r.fetch = some []) :
    scanRepo env st r = st := by
  unfold scanRepo
  rw [hv, hg]
  rfl

lemma scanRepo_eq_cons (env : ScanEnv) (st : ScanState) (r : Repo)
    (i : Issue) (l : List Issue) (hv : (r.isDir && r.isGit) = true)
    (hg : get_open_issues r.fetch = some (i :: l)) :
    scanRepo env st r = { st with
      issuesFound := true
      failed := (processIssues env r.name (i :: l) st.failed st.processable).1
      processable :=
        (processIssues env r.name (i :: l) st.failed st.processable).2 } := by
  unfold scanRepo
  rw [hv, hg]
  rfl

lemma scanRepos_processable (env : ScanEnv) (repos : List Repo) :
    ∀ st, (scanRepos env repos st).processable =
      (st.processable || repos.any (repoDispatchable env st.failed)) := by
  induction repos with
  | nil => intro st; simp [scanRepos]
  | cons r rest ih =>
    intro st
    show (scanRepos env rest (scanRepo env st r)).processable = _
    rw [List.any_cons]
    rcases Bool.eq_false_or_eq_true (r.isDir && r.isGit) with hv | hv
    case inr =>
      rw [scanRepo_eq_invalid env st r hv, ih]
      have hD : repoDispatchable env st.failed r = false := by
        simp [repoDispatchable, hv]
      rw [hD]
      simp
    case inl =>
      cases hg : get_open_issues r.fetch with
      | none =>
        rw [scanRepo_eq_none env st r hv hg, ih]
        have hD : repoDispatchable env st.failed r = false := by
          simp [repoDispatchable, hg]
        rw [hD]
        simp
      | some l =>
        cases l with
        | nil =>
          rw [scanRepo_eq_nil env st r hv hg, ih]
          have hD : repoDispatchable env st.failed r = false := by
            simp [repoDispatchable, hg]
          rw [hD]
          simp
        | cons i l2 =>
          rw [scanRepo_eq_cons env st r i l2 hv hg, ih]
          have hD : repoDispatchable env st.failed r =
              (i :: l2).any (dispatchCond env r.name st.failed) := by
            simp [repoDispatchable, hg, hv]
          rw [hD]
          dsimp only
          rw [pi_processable_eq]
          rcases Bool.eq_false_or_eq_true st.processable with hp | hp
          · simp [hp]
          · rcases Bool.eq_false_or_eq_true
              ((i :: l2).any (dispatchCond env r.name st.failed)) with hA | hA
            · simp [hp, hA]
            · rw [pi_failed_frozen env r.name (i :: l2) st.failed
                st.processable hA]
              simp [hp, hA]

lemma repoDispatchable_imp_hasItems (env : ScanEnv) (failed : List String)
    (r : Repo) (h : repoDispatchable env failed r = true) :
    repoHasItems r = true := by
  unfold repoDispatchable at h
  unfold repoHasItems
  rw [Bool.and_eq_true] at h
  obtain ⟨hv, hm⟩ := h
  rw [hv, Bool.true_and]
  cases hg : get_open_issues r.fetch with
  | none => rw [hg] at hm; exact hm
  | some l =>
    rw [hg] at hm
    cases l with
    | nil => simp at hm
    | cons i l2 => rfl

lemma scanRepos_all_fail_mem (env : ScanEnv)
    (hfail : ∀ r m, env.proc r m ≠ .success) (repos : List Repo) :
    ∀ (st : ScanState) (r : Repo) (l : List Issue) (i : Issue),
      r ∈ repos → (r.isDir && r.isGit) = true →
      get_open_issues r.fetch = some l → i ∈ l →
      env.recent r.name i.number = false →
      issueKey r.name i.number ∈ (scanRepos env repos st).failed := by
  induction repos with
  | nil =>
    intro st r l i hr _ _ _ _
    exact absurd hr (List.not_mem_nil r)
  | cons r0 rest ih =>
    intro st r l i hr hv hg hi hrec
    rcases List.mem_cons.mp hr with hr0 | hrrest
    · subst hr0
      show issueKey r.name i.number ∈ (scanRepos env rest (scanRepo env st r)).failed
      cases l with
      | nil => exact absurd hi (List.not_mem_nil i)
      | cons j l2 =>
        rw [scanRepo_eq_cons env st r j l2 hv hg]
        apply scanRepos_failed_mono
        exact pi_all_fail_mem env r.name hfail (j :: l2) st.failed
          st.processable i hi hrec
    · exact ih (scanRepo env st r0) r l i hrrest hv hg hi hrec

/-! ## Claim theorems -/

/-- C1: for every lock-acquisition attempt on an existing lock record, if
the recorded owner process is alive, acquire returns false and leaves the
record (and the whole lock state) unchanged; if the recorded owner is not
alive, acquire discards the stale record, writes a fresh record naming
the current process, sets the locked flag, and returns true. -/
theorem claim_c1_acquire (alive : Int → Bool) (myPid p : Int)
    (content : String) (loc : Bool) (hp : parsePid content = some p) :
    (alive p = true →
      LockFile.acquire alive myPid ⟨some content, loc⟩ =
        (false, ⟨some content, loc⟩)) ∧
    (alive p = false →
      LockFile.acquire alive myPid ⟨some content, loc⟩ =
        (true, ⟨some (toString myPid), true⟩)) := by
  constructor
  · intro ha
    unfold LockFile.acquire
    simp [hp, ha]
  · intro ha
    unfold LockFile.acquire
    simp [hp, ha]

theorem claim_c1_acquire_witness :
    parsePid "123" = some 123 ∧
    LockFile.acquire (fun _ => true) 999 ⟨some "123", false⟩ =
      (false, ⟨some "123", false⟩) ∧
    LockFile.acquire (fun _ => false) 999 ⟨some "123", false⟩ =
      (true, ⟨some "999", true⟩) :=
  ⟨by decide,
   (claim_c1_acquire (fun _ => true) 999 123 "123" false (by decide)).1 rfl,
   (claim_c1_acquire (fun _ => false) 999 123 "123" false (by decide)).2 rfl⟩

/-- Case analysis for LockFile.release: it either leaves the state alone
or removes the record and clears the flag. -/
lemma release_cases (myPid : Int) (s : LockState) :
    LockFile.release myPid s = s ∨
      LockFile.release myPid s = ⟨none, false⟩ := by
  unfold LockFile.release
  rcases Bool.eq_false_or_eq_true s.locked with hl | hl
  · rw [if_pos hl]
    cases hf : s.file with
    | none => exact Or.inl rfl
    | some content =>
      cases hp : parsePid content with
      | none => simp [hp]
      | some pid =>
        by_cases hpe : pid = myPid
        · simp [hp, hpe]
        · simp [hp, hpe]
  · rw [if_neg (by simp [hl])]
    exact Or.inl rfl

/-- C7: release is idempotent, and whenever the persisted lock record does
not parse to exactly the current process id (a different owner, or
unparseable content), release leaves the whole state — in particular the
lock record — unchanged; removal happens only when the record still names
the current process. -/
theorem claim_c7_release (myPid : Int) :
    (∀ s : LockState,
      LockFile.release myPid (LockFile.release myPid s) =
        LockFile.release myPid s) ∧
    (∀ (s : LockState) (content : String), s.file = some content →
      parsePid content ≠ some myPid → LockFile.release myPid s = s) := by
  constructor
  · intro s
    rcases release_cases myPid s with h | h
    · rw [h]; exact h
    · rw [h]; rfl
  · intro s content hf hp
    unfold LockFile.release
    rcases Bool.eq_false_or_eq_true s.locked with hl | hl
    · rw [if_pos hl]
      cases hpc : parsePid content with
      | none => simp [hf, hpc]
      | some pid =>
        have hpe : ¬(pid = myPid) := fun h => hp (by rw [hpc, h])
        simp [hf, hpc, hpe]
    · rw [if_neg (by simp [hl])]

theorem claim_c7_release_witness :
    (⟨some "777", true⟩ : LockState).file = some "777" ∧
    parsePid "777" ≠ some 555 ∧
    LockFile.release 555 ⟨some "777", true⟩ = ⟨some "777", true⟩ ∧
    LockFile.release 555 (LockFile.release 555 ⟨some "777", true⟩) =
      LockFile.release 555 ⟨some "777", true⟩ :=
  ⟨rfl, by decide,
   (claim_c7_release 555).2 ⟨some "777", true⟩ "777" rfl (by decide),
   (claim_c7_release 555).1 ⟨some "777", true⟩⟩

/-- C8: a lock record whose content does not parse as a process id is
treated as stale, not fatal: acquire discards it, writes a fresh record
naming the current process, and returns true. -/
theorem claim_c8_acquire_corrupt (alive : Int → Bool) (myPid : Int)
    (content : String) (loc : Bool) (hp : parsePid content = none) :
    LockFile.acquire alive myPid ⟨some content, loc⟩ =
      (true, ⟨some (toString myPid), true⟩) := by
  unfold LockFile.acquire
  simp [hp]

theorem claim_c8_acquire_corrupt_witness :
    parsePid "garbage" = none ∧
    LockFile.acquire (fun _ => true) 42 ⟨some "garbage", false⟩ =
      (true, ⟨some "42", true⟩) :=
  ⟨by decide,
   claim_c8_acquire_corrupt (fun _ => true) 42 "garbage" false (by decide)⟩

/-- C3 counterexample: a failed quota fetch whose stderr mentions a rate
limit does not fail open — the governor returns a 3600 second wait, not
zero delay. -/
theorem claim_c3_counterexample :
    check_github_rate_limit (.errResult "API rate limit exceeded") 0 = 3600 ∧
    (3600 : ℚ) ≠ 0 := by
  constructor
  · decide
  · norm_num

/-- C3 amended: when the quota fetch raises an exception (during the call
or while parsing), or completes with a non-zero result whose error text
does not mention a rate limit, the governor fails open with zero delay;
but a non-zero fetch result whose error text mentions a rate limit
yields a fixed 3600 second wait instead. -/
theorem claim_c3_fail_open (now : ℚ) (stderr : String) :
    check_github_rate_limit .exn now = 0 ∧
    (strContainsSub "rate limit" (pyLower stderr) = false →
      check_github_rate_limit (.errResult stderr) now = 0) ∧
    (strContainsSub "rate limit" (pyLower stderr) = true →
      check_github_rate_limit (.errResult stderr) now = 3600) := by
  refine ⟨rfl, ?_, ?_⟩
  · intro h
    simp [check_github_rate_limit, h]
  · intro h
    simp [check_github_rate_limit, h]

theorem claim_c3_fail_open_witness :
    strContainsSub "rate limit" (pyLower "connection timed out") = false ∧
    check_github_rate_limit (.errResult "connection timed out") 0 = 0 :=
  ⟨by decide, (claim_c3_fail_open 0 "connection timed out").2.1 (by decide)⟩

/-- C4 counterexample: with the core category exhausted (remaining 0,
reset at t = 4000) and the graphql category healthy (remaining 3000) but
resetting earlier (t = 1000), the binding category is core, yet at
now = 0 the governor waits only min(4000, 1000) + 60 = 1060 seconds —
less than the 4000 + 60 = 4060 seconds the claim requires for the
binding category's reset. -/
theorem claim_c4_counterexample :
    min (⟨0, 5000, 4000⟩ : QuotaCategory).remaining
      (⟨3000, 5000, 1000⟩ : QuotaCategory).remaining = 0 ∧
    (⟨0, 5000, 4000⟩ : QuotaCategory).remaining <
      (⟨3000, 5000, 1000⟩ : QuotaCategory).remaining ∧
    check_github_rate_limit
      (.okResult ⟨0, 5000, 4000⟩ (some ⟨3000, 5000, 1000⟩)) 0 = 1060 ∧
    ¬ ((1060 : ℚ) ≥
        (((⟨0, 5000, 4000⟩ : QuotaCategory).reset : ℚ) - 0) + 60) := by
  refine ⟨by norm_num, by norm_num, ?_, by norm_num⟩
  norm_num [check_github_rate_limit]

/-- C4 amended: when the binding remaining count (the minimum of the
core and graphql categories) is zero, the computed wait equals the time
until the earliest reset timestamp among the tracked categories —
which can be earlier than the exhausted category's own reset — plus a
60 second safety margin, in particular it is at least that long, and the
caller then proceeds. -/
theorem claim_c4_quota_exhausted (core : QuotaCategory)
    (g : Option QuotaCategory) (now : ℚ)
    (h0 : min core.remaining (g.getD core).remaining = 0) :
    check_github_rate_limit (.okResult core g) now =
      max 0 ((min core.reset (g.getD core).reset : ℚ) - now) + 60 ∧
    check_github_rate_limit (.okResult core g) now ≥
      ((min core.reset (g.getD core).reset : ℚ) - now) + 60 ∧
    (checkAndWait (.okResult core g) now).2 = true := by
  have heq : check_github_rate_limit (.okResult core g) now =
      max 0 ((min core.reset (g.getD core).reset : ℚ) - now) + 60 := by
    simp only [check_github_rate_limit]
    rw [h0]
    norm_num
  refine ⟨heq, ?_, rfl⟩
  rw [heq]
  have hle : ((min core.reset (g.getD core).reset : ℚ) - now) ≤
      max 0 ((min core.reset (g.getD core).reset : ℚ) - now) :=
    le_max_right _ _
  linarith

theorem claim_c4_quota_exhausted_witness :
    min (⟨0, 5000, 300⟩ : QuotaCategory).remaining
      ((Option.getD none ⟨0, 5000, 300⟩ : QuotaCategory)).remaining = 0 ∧
    check_github_rate_limit (.okResult ⟨0, 5000, 300⟩ none) 0 = 360 :=
  ⟨by decide,
   ((claim_c4_quota_exhausted ⟨0, 5000, 300⟩ none 0 (by decide)).1).trans
     (by norm_num)⟩

/-- C5 counterexample: with 49 requests remaining and 98 seconds until
reset, the claimed pacing delay is 98 / 49 = 2 seconds, but because that
delay is not above the 10 second threshold the governor returns 0 and
sleeps not at all. -/
theorem claim_c5_counterexample :
    (0 : Nat) < min 49 49 ∧ (min 49 49 : Nat) < 50 ∧
    check_github_rate_limit (.okResult ⟨49, 5000, 98⟩ none) 0 = 0 ∧
    (max 0 ((98 : ℚ) - 0)) / 49 = 2 ∧ (0 : ℚ) ≠ 2 := by
  refine ⟨by norm_num, by norm_num, ?_, by norm_num, by norm_num⟩
  norm_num [check_github_rate_limit]

/-- C5 amended: when the binding remaining count is strictly between 0
and the low-water mark of 50, the governor computes the pacing delay as
the time remaining until the binding reset divided by the requests
remaining, sleeps that long once if the delay exceeds 10 seconds and
otherwise imposes no delay, and in either case the caller proceeds. -/
theorem claim_c5_quota_low (core : QuotaCategory) (g : Option QuotaCategory)
    (now : ℚ) (hpos : 0 < min core.remaining (g.getD core).remaining)
    (hlt : min core.remaining (g.getD core).remaining < 50) :
    check_github_rate_limit (.okResult core g) now =
      (if max 0 ((min core.reset (g.getD core).reset : ℚ) - now) /
          (min core.remaining (g.getD core).remaining : ℚ) > 10
       then max 0 ((min core.reset (g.getD core).reset : ℚ) - now) /
          (min core.remaining (g.getD core).remaining : ℚ)
       else 0) ∧
    (checkAndWait (.okResult core g) now).2 = true := by
  refine ⟨?_, rfl⟩
  simp only [check_github_rate_limit]
  rw [if_pos hlt, if_neg (Nat.pos_iff_ne_zero.mp hpos)]
  push_cast
  rfl

theorem claim_c5_quota_low_witness :
    (0 : Nat) < min 10 10 ∧ (min 10 10 : Nat) < 50 ∧
    check_github_rate_limit (.okResult ⟨10, 5000, 2000⟩ none) 0 = 200 :=
  ⟨by norm_num, by norm_num,
   ((claim_c5_quota_low ⟨10, 5000, 2000⟩ none 0 (by norm_num) (by norm_num)).1).trans
     (by norm_num)⟩

/-- Scanning the reversed comment list with an early-return True is the
same containment test as scanning in order. -/
lemma check_recent_attempt_eq_any (comments : List IssueComment) (now cd : ℚ) :
    check_recent_attempt comments now cd =
      comments.any (fun c => strContainsSub croncoderPattern c.body &&
        match c.createdAt with
        | some t => decide (now - t < cd * 3600)
        | none => false) := by
  unfold check_recent_attempt
  rw [List.any_reverse]

/-- C6: for a comment list holding exactly one CronCoder attempt marker,
carrying a parseable timestamp t, the item is reported in cooldown
exactly when the marker's age (now - t) is strictly below the cooldown
window, and not in cooldown when its age is at or above the window. -/
theorem claim_c6_cooldown (pre post : List IssueComment) (body : String)
    (t now cd : ℚ)
    (hbody : strContainsSub croncoderPattern body = true)
    (hpre : ∀ c ∈ pre, strContainsSub croncoderPattern c.body = false)
    (hpost : ∀ c ∈ post, strContainsSub croncoderPattern c.body = false) :
    (now - t < cd * 3600 →
      check_recent_attempt (pre ++ ⟨body, some t⟩ :: post) now cd = true) ∧
    (cd * 3600 ≤ now - t →
      check_recent_attempt (pre ++ ⟨body, some t⟩ :: post) now cd = false) := by
  have hpre2 : pre.any (fun c => strContainsSub croncoderPattern c.body &&
      match c.createdAt with
      | some t2 => decide (now - t2 < cd * 3600)
      | none => false) = false := by
    rw [List.any_eq_false]
    intro c hc
    simp [hpre c hc]
  have hpost2 : post.any (fun c => strContainsSub croncoderPattern c.body &&
      match c.createdAt with
      | some t2 => decide (now - t2 < cd * 3600)
      | none => false) = false := by
    rw [List.any_eq_false]
    intro c hc
    simp [hpost c hc]
  constructor
  · intro h
    rw [check_recent_attempt_eq_any, List.any_append, List.any_cons,
      hpre2, hpost2]
    simp [hbody, h]
  · intro h
    rw [check_recent_attempt_eq_any, List.any_append, List.any_cons,
      hpre2, hpost2]
    simp [hbody]
    exact h

theorem claim_c6_cooldown_witness :
    strContainsSub croncoderPattern croncoderPattern = true ∧
    (10 : ℚ) - 0 < 1 * 3600 ∧
    check_recent_attempt [⟨croncoderPattern, some 0⟩] 10 1 = true :=
  ⟨by decide, by norm_num,
   (claim_c6_cooldown [] [] croncoderPattern 0 10 1 (by decide)
     (by intro c hc; exact absurd hc (List.not_mem_nil c))
     (by intro c hc; exact absurd hc (List.not_mem_nil c))).1 (by norm_num)⟩

/-- C9: an unexpected exception escaping process_issue for one item is
caught at the item boundary of the scan loop: the rest of the issue list
is processed exactly as if the item had merely failed — with the item
recorded in the session failure set and the processable flag kept — and
the item's key is in the loop's final failure set; in particular the
exception never escapes the loop. -/
theorem claim_c9_item_exception (env : ScanEnv) (repoName : String)
    (issue : Issue) (rest : List Issue) (failed : List String) (p : Bool)
    (hnf : issueKey repoName issue.number ∉ failed)
    (hrec : env.recent repoName issue.number = false)
    (hexn : env.proc repoName issue.number = .exn) :
    processIssues env repoName (issue :: rest) failed p =
      processIssues env repoName rest
        (addKey failed (issueKey repoName issue.number)) true ∧
    issueKey repoName issue.number ∈
      (processIssues env repoName (issue :: rest) failed p).1 := by
  have hstep : processIssues env repoName (issue :: rest) failed p =
      processIssues env repoName rest
        (addKey failed (issueKey repoName issue.number)) true := by
    unfold processIssues
    rw [if_neg hnf, hrec]
    simp only [Bool.false_eq_true, if_false, hexn]
    cases rest <;> rfl
  refine ⟨hstep, ?_⟩
  rw [hstep]
  exact pi_failed_mono env repoName rest _ true _ (mem_addKey_self _ _)

theorem claim_c9_item_exception_witness :
    issueKey "repoA" 1 ∉ ([] : List String) ∧
    (ScanEnv.mk (fun _ _ => false) (fun _ _ => .exn)).recent "repoA" 1 = false ∧
    (ScanEnv.mk (fun _ _ => false) (fun _ _ => .exn)).proc "repoA" 1 = .exn ∧
    issueKey "repoA" 1 ∈
      (processIssues (ScanEnv.mk (fun _ _ => false) (fun _ _ => .exn))
        "repoA" [⟨1, []⟩] [] false).1 :=
  ⟨by simp, rfl, rfl,
   (claim_c9_item_exception (ScanEnv.mk (fun _ _ => false) (fun _ _ => .exn))
     "repoA" ⟨1, []⟩ [] [] false (by simp) rfl rfl).2⟩

/-- C10: a repository whose issue listing fails with a rate-limit error
contributes no issues to the pass — removing it changes nothing except
that the rate-limit flag is set — and whenever the rate-limit flag is set
the main loop sleeps for the configured interval (in seconds) and exits,
regardless of the other flags, in particular even when the pass
dispatched items elsewhere. -/
theorem claim_c10_rate_limit (env : ScanEnv) (before after : List Repo)
    (r : Repo) (failed₀ : List String) (m : Nat)
    (hd : r.isDir = true) (hg : r.isGit = true)
    (hrl : get_open_issues r.fetch = none) :
    scan_repositories env (before ++ r :: after) failed₀ =
      { scan_repositories env (before ++ after) failed₀ with
        rateLimit := true } ∧
    (∀ st : ScanState, st.rateLimit = true → mainPass m st = some (m * 60)) := by
  constructor
  · unfold scan_repositories
    have h1 : before ++ r :: after = before ++ [r] ++ after := by simp
    rw [h1, scanRepos_append, scanRepos_append, scanRepos_append]
    have h2 : scanRepos env [r]
        (scanRepos env before ⟨false, failed₀, false, false⟩) =
        { scanRepos env before ⟨false, failed₀, false, false⟩ with
          rateLimit := true } := by
      show scanRepos env []
        (scanRepo env (scanRepos env before ⟨false, failed₀, false, false⟩) r) = _
      rw [scanRepo_eq_none env _ r (by rw [hd, hg]; rfl) hrl]
      rfl
    rw [h2, scanRepos_rateLimit_true]
  · intro st h
    unfold mainPass
    rw [h]
    rfl

theorem claim_c10_rate_limit_witness :
    (⟨"rl", true, true, .cmdErr "API rate limit exceeded"⟩ : Repo).isDir = true ∧
    get_open_issues (FetchResult.cmdErr "API rate limit exceeded") = none ∧
    scan_repositories (ScanEnv.mk (fun _ _ => false) (fun _ _ => .failure))
      [⟨"rl", true, true, .cmdErr "API rate limit exceeded"⟩,
       ⟨"g", true, true, .fetched [⟨1, []⟩]⟩] [] =
      { scan_repositories (ScanEnv.mk (fun _ _ => false) (fun _ _ => .failure))
          [⟨"g", true, true, .fetched [⟨1, []⟩]⟩] [] with rateLimit := true } ∧
    mainPass 30 ⟨true, [], true, true⟩ = some (30 * 60) :=
  ⟨rfl, by decide,
   (claim_c10_rate_limit (ScanEnv.mk (fun _ _ => false) (fun _ _ => .failure))
     [] [⟨"g", true, true, .fetched [⟨1, []⟩]⟩]
     ⟨"rl", true, true, .cmdErr "API rate limit exceeded"⟩ [] 30
     rfl rfl (by decide)).1,
   (claim_c10_rate_limit (ScanEnv.mk (fun _ _ => false) (fun _ _ => .failure))
     [] [⟨"g", true, true, .fetched [⟨1, []⟩]⟩]
     ⟨"rl", true, true, .cmdErr "API rate limit exceeded"⟩ [] 30
     rfl rfl (by decide)).2 ⟨true, [], true, true⟩ rfl⟩

lemma passOutcome_eq_idle (s : ScanState) :
    passOutcome s = .idle ↔ s.issuesFound = false := by
  cases hif : s.issuesFound <;> cases hp : s.processable <;>
    simp [passOutcome, hif, hp]

lemma passOutcome_eq_exhausted (s : ScanState) :
    passOutcome s = .exhausted ↔
      (s.issuesFound = true ∧ s.processable = false) := by
  cases hif : s.issuesFound <;> cases hp : s.processable <;>
    simp [passOutcome, hif, hp]

lemma passOutcome_eq_progressed (s : ScanState) :
    passOutcome s = .progressed ↔
      (s.issuesFound = true ∧ s.processable = true) := by
  cases hif : s.issuesFound <;> cases hp : s.processable <;>
    simp [passOutcome, hif, hp]

/-- C2 counterexample: a pass over one repository whose only open issue
carries the croncoder-skip exclusion label is classified idle, not
exhausted — the excluded item is filtered out of the listing before the
issues-found test, so an item existed, every item was filtered out as
excluded, none was dispatched, and still the outcome is idle. -/
theorem claim_c2_counterexample :
    ([Issue.mk 1 ["croncoder-skip"]] ≠ []) ∧
    get_open_issues (.fetched [⟨1, ["croncoder-skip"]⟩]) = some [] ∧
    (scan_repositories (ScanEnv.mk (fun _ _ => false) (fun _ _ => .failure))
      [⟨"r", true, true, .fetched [⟨1, ["croncoder-skip"]⟩]⟩] []).rateLimit
      = false ∧
    passOutcome (scan_repositories
      (ScanEnv.mk (fun _ _ => false) (fun _ _ => .failure))
      [⟨"r", true, true, .fetched [⟨1, ["croncoder-skip"]⟩]⟩] []) = .idle ∧
    PassOutcome.idle ≠ PassOutcome.exhausted := by
  refine ⟨by simp, by decide, by decide, by decide, by decide⟩

/-- C2 amended: for every pass, the outcome is exactly one of three
values, classified from the post-exclusion listings: idle when no valid
repository's listing holds a surviving (non-excluded) issue; exhausted
when surviving issues existed but none was dispatchable (every one was
session-failed or in cooldown), so none was dispatched; progressed when
at least one issue was dispatchable and hence dispatched.  Items carrying
the exclusion label are filtered out before the issues-found test, so
they do not count as existing.  Moreover, when no processing ever
succeeds, a pass that dispatched something is progressed and an
immediately repeated pass over the same repositories with the resulting
session failure set is exhausted. -/
theorem claim_c2_pass_outcome (env : ScanEnv) (repos : List Repo)
    (failed₀ : List String) :
    (passOutcome (scan_repositories env repos failed₀) = .idle ↔
      ¬ ∃ r ∈ repos, repoHasItems r = true) ∧
    (passOutcome (scan_repositories env repos failed₀) = .exhausted ↔
      ((∃ r ∈ repos, repoHasItems r = true) ∧
        ¬ ∃ r ∈ repos, repoDispatchable env failed₀ r = true)) ∧
    (passOutcome (scan_repositories env repos failed₀) = .progressed ↔
      (∃ r ∈ repos, repoDispatchable env failed₀ r = true)) ∧
    ((∀ rn k, env.proc rn k ≠ .success) →
      (scan_repositories env repos failed₀).processable = true →
      passOutcome (scan_repositories env repos failed₀) = .progressed ∧
      passOutcome (scan_repositories env repos
        (scan_repositories env repos failed₀).failed) = .exhausted) := by
  have hIF : (scan_repositories env repos failed₀).issuesFound =
      repos.any repoHasItems := by
    unfold scan_repositories
    rw [scanRepos_issuesFound]
    exact Bool.false_or _
  have hP : (scan_repositories env repos failed₀).processable =
      repos.any (repoDispatchable env failed₀) := by
    unfold scan_repositories
    rw [scanRepos_processable]
    exact Bool.false_or _
  have himp : (scan_repositories env repos failed₀).processable = true →
      (scan_repositories env repos failed₀).issuesFound = true := by
    rw [hIF, hP]
    intro h
    rw [List.any_eq_true] at h ⊢
    obtain ⟨r, hr, hd2⟩ := h
    exact ⟨r, hr, repoDispatchable_imp_hasItems env failed₀ r hd2⟩
  refine ⟨?_, ?_, ?_, ?_⟩
  · rw [passOutcome_eq_idle, hIF]
    constructor
    · intro h hex
      rw [List.any_eq_false] at h
      obtain ⟨r, hr, hh⟩ := hex
      exact h r hr hh
    · intro h
      rw [List.any_eq_false]
      intro r hr hh
      exact h ⟨r, hr, hh⟩
  · rw [passOutcome_eq_exhausted, hIF, hP]
    constructor
    · rintro ⟨h1, h2⟩
      refine ⟨List.any_eq_true.mp h1, ?_⟩
      intro hex
      obtain ⟨r, hr, hd2⟩ := hex
      rw [List.any_eq_false] at h2
      exact h2 r hr hd2
    · rintro ⟨h1, h2⟩
      refine ⟨List.any_eq_true.mpr h1, ?_⟩
      rw [List.any_eq_false]
      intro r hr hd2
      exact h2 ⟨r, hr, hd2⟩
  · constructor
    · intro h
      have h2 := (passOutcome_eq_progressed _).mp h
      rw [hP] at h2
      exact List.any_eq_true.mp h2.2
    · intro hex
      have hp2 : (scan_repositories env repos failed₀).processable = true := by
        rw [hP]
        exact List.any_eq_true.mpr hex
      exact (passOutcome_eq_progressed _).mpr ⟨himp hp2, hp2⟩
  · intro hfail hp2
    have hprog : passOutcome (scan_repositories env repos failed₀) =
        .progressed :=
      (passOutcome_eq_progressed _).mpr ⟨himp hp2, hp2⟩
    refine ⟨hprog, ?_⟩
    have hIF2 : (scan_repositories env repos
        (scan_repositories env repos failed₀).failed).issuesFound =
        repos.any repoHasItems := by
      unfold scan_repositories
      rw [scanRepos_issuesFound]
      exact Bool.false_or _
    have hP2 : (scan_repositories env repos
        (scan_repositories env repos failed₀).failed).processable =
      repos.any (repoDispatchable env
        (scan_repositories env repos failed₀).failed) := by
      unfold scan_repositories
      rw [scanRepos_processable]
      exact Bool.false_or _
    rw [passOutcome_eq_exhausted]
    constructor
    · rw [hIF2, ← hIF]
      exact himp hp2
    · rw [hP2, List.any_eq_false]
      intro r hr hd2
      unfold repoDispatchable at hd2
      rw [Bool.and_eq_true] at hd2
      obtain ⟨hv, hm⟩ := hd2
      cases hg : get_open_issues r.fetch with
      | none =>
        rw [hg] at hm
        simp at hm
      | some l =>
        rw [hg] at hm
        rw [List.any_eq_true] at hm
        obtain ⟨i, hi, hci⟩ := hm
        unfold dispatchCond at hci
        rw [Bool.and_eq_true] at hci
        obtain ⟨hc1, hc2⟩ := hci
        have hnotin : issueKey r.name i.number ∉
            (scan_repositories env repos failed₀).failed := by
          simpa using hc1
        have hrec2 : env.recent r.name i.number = false := by
          simpa using hc2
        exact hnotin (scanRepos_all_fail_mem env hfail repos
          ⟨false, failed₀, false, false⟩ r l i hr hv hg hi hrec2)

theorem claim_c2_pass_outcome_witness :
    (∀ rn k, (ScanEnv.mk (fun _ _ => false)
      (fun _ _ => ProcResult.failure)).proc rn k ≠ .success) ∧
    (scan_repositories (ScanEnv.mk (fun _ _ => false) (fun _ _ => .failure))
      [⟨"r", true, true, .fetched [⟨1, []⟩]⟩] []).processable = true ∧
    passOutcome (scan_repositories
      (ScanEnv.mk (fun _ _ => false) (fun _ _ => .failure))
      [⟨"r", true, true, .fetched [⟨1, []⟩]⟩] []) = .progressed ∧
    passOutcome (scan_repositories
      (ScanEnv.mk (fun _ _ => false) (fun _ _ => .failure))
      [⟨"r", true, true, .fetched [⟨1, []⟩]⟩]
      (scan_repositories
        (ScanEnv.mk (fun _ _ => false) (fun _ _ => .failure))
        [⟨"r", true, true, .fetched [⟨1, []⟩]⟩] []).failed) = .exhausted :=
  ⟨fun _ _ h => ProcResult.noConfusion h, by decide,
   ((claim_c2_pass_outcome
     (ScanEnv.mk (fun _ _ => false) (fun _ _ => .failure))
     [⟨"r", true, true, .fetched [⟨1, []⟩]⟩] []).2.2.2
     (fun _ _ h => ProcResult.noConfusion h) (by decide)).1,
   ((claim_c2_pass_outcome
     (ScanEnv.mk (fun _ _ => false) (fun _ _ => .failure))
     [⟨"r", true, true, .fetched [⟨1, []⟩]⟩] []).2.2.2
     (fun _ _ h => ProcResult.noConfusion h) (by decide)).2⟩
